import Mathlib

/-!
Shallow embedding of `tools/springboot/verify_conflict.py`.

The script reads a textual "classes index" file (lines `Jarname: <path>`
introduce a jar, lines ending in `.class` list a class contained in the
current jar), an allowlist file of jar basenames, and checks whether any
class path is contributed with differing content (MD5 digests) by two
adjacent jars in its list, at least one of which is not allowlisted.

Modelling choices:
* a file is a `List String` of its lines;
* reading a class entry from a jar and hashing it (`zipfile` + `md5`) is
  abstracted by a `digest : String → String → String` environment
  parameter mapping (jar path, class path) to the hex digest;
* the Python `dict`/`set` are modelled by insertion-ordered duplicate-free
  lists (`addToSet` appends only when absent);
* printing is modelled by accumulating the printed conflict class paths,
  and the archive reads performed are accumulated in `reads`;
* the string primitives (`strip`, `startswith`, `endswith`, `split`,
  `os.path.basename`) are defined by structural recursion on the
  character list of the string.
-/

namespace VerifyConflict

def wsChar (c : Char) : Bool := c.isWhitespace

/-- Python `str.strip()` on a character list. -/
def stripList (l : List Char) : List Char :=
  ((l.dropWhile wsChar).reverse.dropWhile wsChar).reverse

/-- Python `str.strip()`. -/
def pyStrip (s : String) : String := ⟨stripList s.data⟩

def isPrefixList : List Char → List Char → Bool
  | [], _ => true
  | _ :: _, [] => false
  | a :: as, b :: bs => a = b && isPrefixList as bs

/-- Python `s.startswith(p)`. -/
def pyStartsWith (s p : String) : Bool := isPrefixList p.data s.data

/-- Python `s.endswith(p)`. -/
def pyEndsWith (s p : String) : Bool :=
  isPrefixList p.data.reverse s.data.reverse

/-- Python `s[n:]` for a nonnegative `n`. -/
def pyDrop (s : String) (n : Nat) : String := ⟨s.data.drop n⟩

/-- Model of `os.path.basename`: the substring after the last `/`. -/
def basename (s : String) : String :=
  ⟨(s.data.reverse.takeWhile (fun c => c ≠ '/')).reverse⟩

/-- Python `line.split()[-1].strip()`: the last whitespace-separated
token (`""` when there is none, where Python would raise `IndexError`;
the parser only applies this to stripped lines ending in `".class"`,
which have one). -/
def lastToken (s : String) : String :=
  pyStrip ⟨((s.data.reverse.dropWhile wsChar).takeWhile
    (fun c => ¬ wsChar c)).reverse⟩

/-- Add an element to a set modelled as a duplicate-free list. -/
def addToSet (s : List String) (x : String) : List String :=
  if x ∈ s then s else s ++ [x]

/-- State threaded through `_check_for_duplicate_classes` for one class:
`found` is `found_duplicates`, `violations` is `allowlist_violation_jars`,
`allMatch` is `all_hash_digests_match`, `reads` records the
`(jar path, class path)` archive reads performed. -/
structure ClassScan where
  found : Bool
  violations : List String
  allMatch : Bool
  reads : List (String × String)
deriving Repr, DecidableEq

/-- The body run when adjacent digests differ: each of the two jars whose
basename is not allowlisted is added to the violation set, clearing
`all_hash_digests_match` and raising `found_duplicates`. -/
def mismatchStep (allow : List String) (jarPath prevJarPath : String)
    (st : ClassScan) : ClassScan :=
  let jarBase := basename jarPath
  let prevJarBase := basename prevJarPath
  let st1 :=
    if jarBase ∈ allow then st
    else { st with violations := addToSet st.violations jarBase,
                   allMatch := false, found := true }
  if prevJarBase ∈ allow then st1
  else { st1 with violations := addToSet st1.violations prevJarBase,
                  allMatch := false, found := true }

/-- The `for jar_path in jars` loop of `_check_for_duplicate_classes`.
`prev` carries `(previous_digest, previous_jar_path)` when set. -/
def scanJars (digest : String → String → String) (allow : List String)
    (classPath : String) :
    List String → Option (String × String) → ClassScan → ClassScan
  | [], _, st => st
  | jarPath :: rest, prev, st =>
    let d := digest jarPath classPath
    let st1 := { st with reads := st.reads ++ [(jarPath, classPath)] }
    let st2 :=
      match prev with
      | none => st1
      | some (prevDigest, prevJarPath) =>
        if prevDigest ≠ d then mismatchStep allow jarPath prevJarPath st1
        else st1
    scanJars digest allow classPath rest (some (d, jarPath)) st2

/-- Overall state of `_check_for_duplicate_classes`: the running flag and
violation set, the class paths whose conflict message was printed, and the
archive reads performed. -/
structure CheckState where
  foundDuplicates : Bool
  violations : List String
  printedConflicts : List String
  reads : List (String × String)
deriving Repr, DecidableEq

def initialCheckState : CheckState :=
  { foundDuplicates := false, violations := [], printedConflicts := [],
    reads := [] }

/-- The body of the `for class_path, jars in ...` loop: classes with at
most one jar are skipped entirely; otherwise the jar list is scanned and
the conflict message is printed when not all digests matched. -/
def checkClass (digest : String → String → String) (allow : List String)
    (st : CheckState) (classPath : String) (jars : List String) :
    CheckState :=
  if jars.length > 1 then
    let scan := scanJars digest allow classPath jars none
      { found := st.foundDuplicates, violations := st.violations,
        allMatch := true, reads := st.reads }
    { foundDuplicates := scan.found, violations := scan.violations,
      printedConflicts :=
        if scan.allMatch then st.printedConflicts
        else st.printedConflicts ++ [classPath],
      reads := scan.reads }
  else st

/-- The `for class_path, jars in ...` loop of
`_check_for_duplicate_classes`, from an arbitrary running state. -/
def checkClassesFrom (digest : String → String → String)
    (allow : List String) (st : CheckState)
    (entries : List (String × List String)) : CheckState :=
  entries.foldl (fun s e => checkClass digest allow s e.1 e.2) st

/-- Model of `_check_for_duplicate_classes`: fold over the class-path→jars mapping
(in insertion order, as a Python dict iterates). -/
def checkForDuplicateClasses (digest : String → String → String)
    (entries : List (String × List String)) (allow : List String) :
    CheckState :=
  checkClassesFrom digest allow initialCheckState entries

/-- The constant the source calls `JARNAME_` followed by `PREFIX`. -/
def jarnameLabel : String := "Jarname: "

/-- Model of `_parse_classes_index_file`, on the list of lines.  The mapping is
modelled as the ordered list of `(class path, jar path)` appends; `cur`
is `current_jar_path`.  Raising is modelled by `Except.error`. -/
def parseClassesIndexLines :
    List String → Option String → List (String × String) →
    Except String (List (String × String))
  | [], _, acc => .ok acc
  | line :: rest, cur, acc =>
    let l := pyStrip line
    if pyStartsWith l jarnameLabel then
      parseClassesIndexLines rest (some (pyStrip (pyDrop l 9))) acc
    else if pyEndsWith l ".class" then
      let classPath := lastToken l
      if pyEndsWith classPath "module-info.class" then
        parseClassesIndexLines rest cur acc
      else
        match cur with
        | none => .error ("Jar not found for class " ++ classPath)
        | some j => parseClassesIndexLines rest cur (acc ++ [(classPath, j)])
    else
      parseClassesIndexLines rest cur acc

def parseClassesIndexFile (lines : List String) :
    Except String (List (String × String)) :=
  parseClassesIndexLines lines none []

/-- The jar list recorded for one class path, in append order (the value
the defaultdict holds at that key). -/
def jarsFor (pairs : List (String × String)) (c : String) : List String :=
  (pairs.filter (fun p => p.1 = c)).map Prod.snd

/-- Keys in first-insertion order, as a Python dict iterates them. -/
def dedupKeys : List String → List String → List String
  | [], _ => []
  | k :: rest, seen =>
    if k ∈ seen then dedupKeys rest seen
    else k :: dedupKeys rest (k :: seen)

/-- The class-path→jars mapping as an ordered association list. -/
def toEntries (pairs : List (String × String)) :
    List (String × List String) :=
  (dedupKeys (pairs.map Prod.fst) []).map (fun c => (c, jarsFor pairs c))

/-- The per-line body of `_parse_allowlisted_jars_file`: strip, skip
empty and comment lines, add the basename of the rest. -/
def allowStep (acc : List String) (line : String) : List String :=
  let l := pyStrip line
  if l.data.length = 0 || pyStartsWith l "#" then acc
  else addToSet acc (basename l)

/-- Model of `_parse_allowlisted_jars_file`, on the list of lines. -/
def parseAllowlistedJars (lines : List String) : List String :=
  lines.foldl allowStep []

/-- The tail of `run`: raise when the check found duplicates. -/
def raiseIfDuplicates (st : CheckState) : Except String CheckState :=
  if st.foundDuplicates then
    .error "Found duplicate classes in the packaged springboot jar"
  else .ok st

/-- Model of `run`: parse the allowlist, parse the index, run the check,
and raise when duplicates were found. -/
def run (digest : String → String → String)
    (indexLines allowLines : List String) : Except String CheckState :=
  let allow := parseAllowlistedJars allowLines
  match parseClassesIndexFile indexLines with
  | .error e => .error e
  | .ok pairs =>
    raiseIfDuplicates (checkForDuplicateClasses digest (toEntries pairs) allow)

/-- The `(previous_digest, previous_jar_path)` cursor after scanning a
list of jars, starting from a given cursor. -/
def prevAfter (digest : String → String → String) (classPath : String) :
    List String → Option (String × String) → Option (String × String)
  | [], prev => prev
  | jarPath :: rest, _ =>
    prevAfter digest classPath rest (some (digest jarPath classPath, jarPath))

/-- The `current_jar_path` context after the parser has consumed a list
of lines (meaningful when parsing those lines succeeded). -/
def currentJarAfter : List String → Option String → Option String
  | [], cur => cur
  | line :: rest, cur =>
    let l := pyStrip line
    if pyStartsWith l jarnameLabel then
      currentJarAfter rest (some (pyStrip (pyDrop l 9)))
    else currentJarAfter rest cur

/-- Whether the check prints a conflict message for this class: more than
one contributing jar and some adjacent digest mismatch escalated (the
class's `all_hash_digests_match` ends up false). -/
def classConflict (digest : String → String → String)
    (allow : List String) (classPath : String) (jars : List String) :
    Bool :=
  decide (jars.length > 1) &&
    !(scanJars digest allow classPath jars none
        { found := false, violations := [], allMatch := true,
          reads := [] }).allMatch

/-- A concrete digest environment in which distinct jar paths always hold
distinct bytes for every class: the digest is the jar path itself. -/
def digestByJar (jarPath _classPath : String) : String := jarPath

/-- A concrete digest environment in which every jar holds the same
bytes for every class. -/
def constDigest (_jarPath _classPath : String) : String := "d0"

/-! ### Lemmas about the set model -/

theorem mem_addToSet_iff {s : List String} {x y : String} :
    y ∈ addToSet s x ↔ y ∈ s ∨ y = x := by
  unfold addToSet; split <;> simp_all

theorem mem_addToSet_self (s : List String) (x : String) :
    x ∈ addToSet s x := mem_addToSet_iff.mpr (Or.inr rfl)

theorem mem_addToSet_of_mem {s : List String} {y : String} (x : String)
    (h : y ∈ s) : y ∈ addToSet s x := mem_addToSet_iff.mpr (Or.inl h)

/-! ### Lemmas about `mismatchStep` -/

theorem mismatchStep_reads (allow : List String) (j p : String)
    (st : ClassScan) : (mismatchStep allow j p st).reads = st.reads := by
  by_cases hj : basename j ∈ allow <;> by_cases hp : basename p ∈ allow <;>
    simp [mismatchStep, hj, hp]

theorem mismatchStep_found_mono (allow : List String) (j p : String)
    {st : ClassScan} (h : st.found = true) :
    (mismatchStep allow j p st).found = true := by
  by_cases hj : basename j ∈ allow <;> by_cases hp : basename p ∈ allow <;>
    simp [mismatchStep, hj, hp, h]

theorem mismatchStep_mem_mono (allow : List String) (j p : String)
    {st : ClassScan} {x : String} (h : x ∈ st.violations) :
    x ∈ (mismatchStep allow j p st).violations := by
  by_cases hj : basename j ∈ allow <;> by_cases hp : basename p ∈ allow <;>
    simp [mismatchStep, hj, hp, mem_addToSet_iff, h]

theorem mismatchStep_cur (allow : List String) (j p : String)
    (st : ClassScan) (h : basename j ∉ allow) :
    basename j ∈ (mismatchStep allow j p st).violations ∧
      (mismatchStep allow j p st).found = true ∧
      (mismatchStep allow j p st).allMatch = false := by
  by_cases hp : basename p ∈ allow <;>
    simp [mismatchStep, h, hp, mem_addToSet_iff]

theorem mismatchStep_prev (allow : List String) (j p : String)
    (st : ClassScan) (h : basename p ∉ allow) :
    basename p ∈ (mismatchStep allow j p st).violations ∧
      (mismatchStep allow j p st).found = true ∧
      (mismatchStep allow j p st).allMatch = false := by
  by_cases hj : basename j ∈ allow <;>
    simp [mismatchStep, h, hj, mem_addToSet_iff]

theorem mismatchStep_both_allow (allow : List String) (j p : String)
    (st : ClassScan) (hj : basename j ∈ allow) (hp : basename p ∈ allow) :
    mismatchStep allow j p st = st := by
  simp [mismatchStep, hj, hp]

theorem mismatchStep_subset (allow : List String) (j p : String)
    {st : ClassScan} {x : String}
    (h : x ∈ (mismatchStep allow j p st).violations) :
    x ∈ st.violations ∨ x ∉ allow := by
  by_cases hj : basename j ∈ allow <;> by_cases hp : basename p ∈ allow <;>
    simp [mismatchStep, hj, hp, mem_addToSet_iff] at h
  · exact Or.inl h
  · rcases h with h | rfl
    · exact Or.inl h
    · exact Or.inr hp
  · rcases h with h | rfl
    · exact Or.inl h
    · exact Or.inr hj
  · rcases h with (h | rfl) | rfl
    · exact Or.inl h
    · exact Or.inr hj
    · exact Or.inr hp

theorem mismatchStep_allMatch_eq (allow : List String) (j p : String)
    (st : ClassScan) :
    (mismatchStep allow j p st).allMatch =
      (st.allMatch && decide (basename j ∈ allow) &&
        decide (basename p ∈ allow)) := by
  by_cases hj : basename j ∈ allow <;> by_cases hp : basename p ∈ allow <;>
    simp [mismatchStep, hj, hp]

/-! ### Lemmas about `scanJars` -/

theorem scanJars_cons_none (digest : String → String → String)
    (allow : List String) (c j : String) (rest : List String)
    (st : ClassScan) :
    scanJars digest allow c (j :: rest) none st =
      scanJars digest allow c rest (some (digest j c, j))
        { st with reads := st.reads ++ [(j, c)] } := rfl

theorem scanJars_cons_some (digest : String → String → String)
    (allow : List String) (c j : String) (rest : List String)
    (pd pj : String) (st : ClassScan) :
    scanJars digest allow c (j :: rest) (some (pd, pj)) st =
      scanJars digest allow c rest (some (digest j c, j))
        (if pd ≠ digest j c then
          mismatchStep allow j pj { st with reads := st.reads ++ [(j, c)] }
         else { st with reads := st.reads ++ [(j, c)] }) := rfl

theorem prevAfter_cons (digest : String → String → String)
    (c j : String) (rest : List String)
    (prev : Option (String × String)) :
    prevAfter digest c (j :: rest) prev =
      prevAfter digest c rest (some (digest j c, j)) := rfl

theorem scanJars_found_mono (digest : String → String → String)
    (allow : List String) (c : String) :
    ∀ (jars : List String) (prev : Option (String × String))
      (st : ClassScan), st.found = true →
      (scanJars digest allow c jars prev st).found = true := by
  intro jars
  induction jars with
  | nil => exact fun _ _ h => h
  | cons j rest ih =>
    intro prev st h
    cases prev with
    | none => rw [scanJars_cons_none]; exact ih _ _ h
    | some pr =>
      obtain ⟨pd, pj⟩ := pr
      rw [scanJars_cons_some]
      apply ih
      by_cases hc : pd ≠ digest j c
      · rw [if_pos hc]; exact mismatchStep_found_mono _ _ _ h
      · rw [if_neg hc]; exact h

theorem scanJars_mem_mono (digest : String → String → String)
    (allow : List String) (c : String) :
    ∀ (jars : List String) (prev : Option (String × String))
      (st : ClassScan) (x : String), x ∈ st.violations →
      x ∈ (scanJars digest allow c jars prev st).violations := by
  intro jars
  induction jars with
  | nil => exact fun _ _ _ h => h
  | cons j rest ih =>
    intro prev st x h
    cases prev with
    | none => rw [scanJars_cons_none]; exact ih _ _ _ h
    | some pr =>
      obtain ⟨pd, pj⟩ := pr
      rw [scanJars_cons_some]
      apply ih
      by_cases hc : pd ≠ digest j c
      · rw [if_pos hc]; exact mismatchStep_mem_mono _ _ _ h
      · rw [if_neg hc]; exact h

theorem scanJars_allMatch_false (digest : String → String → String)
    (allow : List String) (c : String) :
    ∀ (jars : List String) (prev : Option (String × String))
      (st : ClassScan), st.allMatch = false →
      (scanJars digest allow c jars prev st).allMatch = false := by
  intro jars
  induction jars with
  | nil => exact fun _ _ h => h
  | cons j rest ih =>
    intro prev st h
    cases prev with
    | none => rw [scanJars_cons_none]; exact ih _ _ h
    | some pr =>
      obtain ⟨pd, pj⟩ := pr
      rw [scanJars_cons_some]
      apply ih
      by_cases hc : pd ≠ digest j c
      · rw [if_pos hc, mismatchStep_allMatch_eq]; simp [h]
      · rw [if_neg hc]; exact h

theorem scanJars_allMatch_congr (digest : String → String → String)
    (allow : List String) (c : String) :
    ∀ (jars : List String) (prev : Option (String × String))
      (st st' : ClassScan), st.allMatch = st'.allMatch →
      (scanJars digest allow c jars prev st).allMatch =
        (scanJars digest allow c jars prev st').allMatch := by
  intro jars
  induction jars with
  | nil => exact fun _ _ _ h => h
  | cons j rest ih =>
    intro prev st st' h
    cases prev with
    | none => rw [scanJars_cons_none, scanJars_cons_none]; exact ih _ _ _ h
    | some pr =>
      obtain ⟨pd, pj⟩ := pr
      rw [scanJars_cons_some, scanJars_cons_some]
      apply ih
      by_cases hc : pd ≠ digest j c
      · rw [if_pos hc, if_pos hc, mismatchStep_allMatch_eq,
          mismatchStep_allMatch_eq]
        simp [h]
      · rw [if_neg hc, if_neg hc]; exact h

theorem scanJars_subset (digest : String → String → String)
    (allow : List String) (c : String) :
    ∀ (jars : List String) (prev : Option (String × String))
      (st : ClassScan) (x : String),
      x ∈ (scanJars digest allow c jars prev st).violations →
      x ∈ st.violations ∨ x ∉ allow := by
  intro jars
  induction jars with
  | nil => exact fun _ _ _ h => Or.inl h
  | cons j rest ih =>
    intro prev st x h
    cases prev with
    | none =>
      rw [scanJars_cons_none] at h
      exact ih (some (digest j c, j))
        { st with reads := st.reads ++ [(j, c)] } x h
    | some pr =>
      obtain ⟨pd, pj⟩ := pr
      rw [scanJars_cons_some] at h
      rcases ih _ _ _ h with h' | h'
      · by_cases hc : pd ≠ digest j c
        · rw [if_pos hc] at h'
          exact @mismatchStep_subset allow j pj
            { st with reads := st.reads ++ [(j, c)] } x h'
        · rw [if_neg hc] at h'
          exact Or.inl h'
      · exact Or.inr h'

theorem scanJars_allEqual (digest : String → String → String)
    (allow : List String) (c h : String) :
    ∀ (jars : List String) (prev : Option (String × String))
      (st : ClassScan), (∀ j ∈ jars, digest j c = h) →
      (prev = none ∨ ∃ pj, prev = some (h, pj)) →
      (scanJars digest allow c jars prev st).found = st.found ∧
        (scanJars digest allow c jars prev st).violations = st.violations ∧
        (scanJars digest allow c jars prev st).allMatch = st.allMatch := by
  intro jars
  induction jars with
  | nil => exact fun _ _ _ _ => ⟨rfl, rfl, rfl⟩
  | cons j rest ih =>
    intro prev st hall hprev
    have hj : digest j c = h := hall j (by simp)
    have hrest : ∀ x ∈ rest, digest x c = h := fun x hx => hall x (by simp [hx])
    rcases hprev with rfl | ⟨pj, rfl⟩
    · rw [scanJars_cons_none]
      exact ih _ _ hrest (Or.inr ⟨j, by rw [hj]⟩)
    · rw [scanJars_cons_some]
      have hcond : ¬ (h ≠ digest j c) := by rw [hj]; simp
      rw [if_neg hcond]
      exact ih _ _ hrest (Or.inr ⟨j, by rw [hj]⟩)

theorem scanJars_allAllow (digest : String → String → String)
    (allow : List String) (c : String) :
    ∀ (jars : List String) (prev : Option (String × String))
      (st : ClassScan), (∀ j ∈ jars, basename j ∈ allow) →
      (prev = none ∨ ∃ pd pj, prev = some (pd, pj) ∧ basename pj ∈ allow) →
      (scanJars digest allow c jars prev st).found = st.found ∧
        (scanJars digest allow c jars prev st).violations = st.violations ∧
        (scanJars digest allow c jars prev st).allMatch = st.allMatch := by
  intro jars
  induction jars with
  | nil => exact fun _ _ _ _ => ⟨rfl, rfl, rfl⟩
  | cons j rest ih =>
    intro prev st hall hprev
    have hj : basename j ∈ allow := hall j (by simp)
    have hrest : ∀ x ∈ rest, basename x ∈ allow :=
      fun x hx => hall x (by simp [hx])
    rcases hprev with rfl | ⟨pd, pj, rfl, hpj⟩
    · rw [scanJars_cons_none]
      exact ih _ _ hrest (Or.inr ⟨digest j c, j, rfl, hj⟩)
    · rw [scanJars_cons_some]
      by_cases hc : pd ≠ digest j c
      · rw [if_pos hc, mismatchStep_both_allow allow j pj _ hj hpj]
        exact ih _ _ hrest (Or.inr ⟨digest j c, j, rfl, hj⟩)
      · rw [if_neg hc]
        exact ih _ _ hrest (Or.inr ⟨digest j c, j, rfl, hj⟩)

theorem scanJars_append (digest : String → String → String)
    (allow : List String) (c : String) :
    ∀ (l1 l2 : List String) (prev : Option (String × String))
      (st : ClassScan),
      scanJars digest allow c (l1 ++ l2) prev st =
        scanJars digest allow c l2 (prevAfter digest c l1 prev)
          (scanJars digest allow c l1 prev st) := by
  intro l1
  induction l1 with
  | nil => intros; rfl
  | cons j rest ih =>
    intro l2 prev st
    cases prev with
    | none =>
      rw [List.cons_append, scanJars_cons_none, ih, scanJars_cons_none,
        prevAfter_cons]
    | some pr =>
      obtain ⟨pd, pj⟩ := pr
      rw [List.cons_append, scanJars_cons_some, ih, scanJars_cons_some,
        prevAfter_cons]

theorem scanJars_pair_cur (digest : String → String → String)
    (allow : List String) (c a b : String)
    (hd : digest a c ≠ digest b c) (hb : basename b ∉ allow) :
    ∀ (post : List String) (prev : Option (String × String))
      (st : ClassScan),
      basename b ∈
          (scanJars digest allow c (a :: b :: post) prev st).violations ∧
        (scanJars digest allow c (a :: b :: post) prev st).found = true ∧
        (scanJars digest allow c (a :: b :: post) prev st).allMatch =
          false := by
  have core : ∀ (post : List String) (stA : ClassScan),
      basename b ∈
          (scanJars digest allow c (b :: post)
            (some (digest a c, a)) stA).violations ∧
        (scanJars digest allow c (b :: post)
          (some (digest a c, a)) stA).found = true ∧
        (scanJars digest allow c (b :: post)
          (some (digest a c, a)) stA).allMatch = false := by
    intro post stA
    rw [scanJars_cons_some, if_pos hd]
    obtain ⟨h1, h2, h3⟩ := mismatchStep_cur allow b a
      { stA with reads := stA.reads ++ [(b, c)] } hb
    exact ⟨scanJars_mem_mono _ _ _ _ _ _ _ h1,
      scanJars_found_mono _ _ _ _ _ _ h2,
      scanJars_allMatch_false _ _ _ _ _ _ h3⟩
  intro post prev st
  cases prev with
  | none => rw [scanJars_cons_none]; exact core post _
  | some pr =>
    obtain ⟨pd, pj⟩ := pr
    rw [scanJars_cons_some]
    exact core post _

theorem scanJars_pair_prev (digest : String → String → String)
    (allow : List String) (c a b : String)
    (hd : digest a c ≠ digest b c) (ha : basename a ∉ allow) :
    ∀ (post : List String) (prev : Option (String × String))
      (st : ClassScan),
      basename a ∈
          (scanJars digest allow c (a :: b :: post) prev st).violations ∧
        (scanJars digest allow c (a :: b :: post) prev st).found = true ∧
        (scanJars digest allow c (a :: b :: post) prev st).allMatch =
          false := by
  have core : ∀ (post : List String) (stA : ClassScan),
      basename a ∈
          (scanJars digest allow c (b :: post)
            (some (digest a c, a)) stA).violations ∧
        (scanJars digest allow c (b :: post)
          (some (digest a c, a)) stA).found = true ∧
        (scanJars digest allow c (b :: post)
          (some (digest a c, a)) stA).allMatch = false := by
    intro post stA
    rw [scanJars_cons_some, if_pos hd]
    obtain ⟨h1, h2, h3⟩ := mismatchStep_prev allow b a
      { stA with reads := stA.reads ++ [(b, c)] } ha
    exact ⟨scanJars_mem_mono _ _ _ _ _ _ _ h1,
      scanJars_found_mono _ _ _ _ _ _ h2,
      scanJars_allMatch_false _ _ _ _ _ _ h3⟩
  intro post prev st
  cases prev with
  | none => rw [scanJars_cons_none]; exact core post _
  | some pr =>
    obtain ⟨pd, pj⟩ := pr
    rw [scanJars_cons_some]
    exact core post _

/-! ### Lemmas about `checkClass` and the class fold -/

theorem checkClass_found_mono (digest : String → String → String)
    (allow : List String) (st : CheckState) (c : String)
    (jars : List String) (h : st.foundDuplicates = true) :
    (checkClass digest allow st c jars).foundDuplicates = true := by
  by_cases hl : jars.length > 1
  · unfold checkClass
    rw [if_pos hl]
    exact scanJars_found_mono _ _ _ _ _ _ h
  · unfold checkClass
    rw [if_neg hl]
    exact h

theorem checkClass_printed_mono (digest : String → String → String)
    (allow : List String) (st : CheckState) (c : String)
    (jars : List String) {x : String} (h : x ∈ st.printedConflicts) :
    x ∈ (checkClass digest allow st c jars).printedConflicts := by
  by_cases hl : jars.length > 1
  · unfold checkClass
    rw [if_pos hl]
    dsimp only
    split
    · exact h
    · exact List.mem_append.mpr (Or.inl h)
  · unfold checkClass
    rw [if_neg hl]
    exact h

theorem checkClass_subset (digest : String → String → String)
    (allow : List String) (st : CheckState) (c : String)
    (jars : List String) {x : String}
    (h : x ∈ (checkClass digest allow st c jars).violations) :
    x ∈ st.violations ∨ x ∉ allow := by
  by_cases hl : jars.length > 1
  · unfold checkClass at h
    rw [if_pos hl] at h
    exact scanJars_subset digest allow c jars none
      { found := st.foundDuplicates, violations := st.violations,
        allMatch := true, reads := st.reads } x h
  · unfold checkClass at h
    rw [if_neg hl] at h
    exact Or.inl h

theorem checkClass_singleton (digest : String → String → String)
    (allow : List String) (st : CheckState) (c j : String) :
    checkClass digest allow st c [j] = st := by
  unfold checkClass
  rw [if_neg (by simp)]

theorem checkClass_allEqual (digest : String → String → String)
    (allow : List String) (st : CheckState) (c h : String)
    (jars : List String) (hall : ∀ j ∈ jars, digest j c = h) :
    (checkClass digest allow st c jars).violations = st.violations ∧
      (checkClass digest allow st c jars).foundDuplicates =
        st.foundDuplicates ∧
      (checkClass digest allow st c jars).printedConflicts =
        st.printedConflicts := by
  by_cases hl : jars.length > 1
  · unfold checkClass
    rw [if_pos hl]
    dsimp only
    obtain ⟨hf, hv, hm⟩ := scanJars_allEqual digest allow c h jars none
      { found := st.foundDuplicates, violations := st.violations,
        allMatch := true, reads := st.reads } hall (Or.inl rfl)
    refine ⟨hv, hf, ?_⟩
    simp [hm]
  · unfold checkClass
    rw [if_neg hl]
    exact ⟨rfl, rfl, rfl⟩

theorem checkClass_allAllow (digest : String → String → String)
    (allow : List String) (st : CheckState) (c : String)
    (jars : List String) (hall : ∀ j ∈ jars, basename j ∈ allow) :
    (checkClass digest allow st c jars).violations = st.violations ∧
      (checkClass digest allow st c jars).foundDuplicates =
        st.foundDuplicates ∧
      (checkClass digest allow st c jars).printedConflicts =
        st.printedConflicts := by
  by_cases hl : jars.length > 1
  · unfold checkClass
    rw [if_pos hl]
    dsimp only
    obtain ⟨hf, hv, hm⟩ := scanJars_allAllow digest allow c jars none
      { found := st.foundDuplicates, violations := st.violations,
        allMatch := true, reads := st.reads } hall (Or.inl rfl)
    refine ⟨hv, hf, ?_⟩
    simp [hm]
  · unfold checkClass
    rw [if_neg hl]
    exact ⟨rfl, rfl, rfl⟩

theorem checkClass_pair_cur (digest : String → String → String)
    (allow : List String) (st : CheckState) (c : String)
    (pre post : List String) (a b : String)
    (hd : digest a c ≠ digest b c) (hb : basename b ∉ allow) :
    basename b ∈
        (checkClass digest allow st c
          (pre ++ a :: b :: post)).violations ∧
      (checkClass digest allow st c
        (pre ++ a :: b :: post)).foundDuplicates = true := by
  have hl : (pre ++ a :: b :: post).length > 1 := by simp; omega
  unfold checkClass
  rw [if_pos hl]
  dsimp only
  rw [scanJars_append]
  obtain ⟨h1, h2, _⟩ := scanJars_pair_cur digest allow c a b hd hb post
    (prevAfter digest c pre none)
    (scanJars digest allow c pre none
      { found := st.foundDuplicates, violations := st.violations,
        allMatch := true, reads := st.reads })
  exact ⟨h1, h2⟩

theorem checkClass_pair_prev (digest : String → String → String)
    (allow : List String) (st : CheckState) (c : String)
    (pre post : List String) (a b : String)
    (hd : digest a c ≠ digest b c) (ha : basename a ∉ allow) :
    basename a ∈
        (checkClass digest allow st c
          (pre ++ a :: b :: post)).violations ∧
      (checkClass digest allow st c
        (pre ++ a :: b :: post)).foundDuplicates = true := by
  have hl : (pre ++ a :: b :: post).length > 1 := by simp; omega
  unfold checkClass
  rw [if_pos hl]
  dsimp only
  rw [scanJars_append]
  obtain ⟨h1, h2, _⟩ := scanJars_pair_prev digest allow c a b hd ha post
    (prevAfter digest c pre none)
    (scanJars digest allow c pre none
      { found := st.foundDuplicates, violations := st.violations,
        allMatch := true, reads := st.reads })
  exact ⟨h1, h2⟩

theorem checkClass_conflict_printed (digest : String → String → String)
    (allow : List String) (st : CheckState) (c : String)
    (jars : List String)
    (hconf : classConflict digest allow c jars = true) :
    c ∈ (checkClass digest allow st c jars).printedConflicts := by
  have hparts := hconf
  unfold classConflict at hparts
  rw [Bool.and_eq_true] at hparts
  obtain ⟨hl', hm'⟩ := hparts
  have hl : jars.length > 1 := of_decide_eq_true hl'
  have hm : (scanJars digest allow c jars none
      { found := false, violations := [], allMatch := true,
        reads := [] }).allMatch = false := by
    simp only [Bool.not_eq_true'] at hm'
    exact hm'
  unfold checkClass
  rw [if_pos hl]
  dsimp only
  have hmatch : (scanJars digest allow c jars none
      { found := st.foundDuplicates, violations := st.violations,
        allMatch := true, reads := st.reads }).allMatch = false := by
    rw [scanJars_allMatch_congr digest allow c jars none
      { found := st.foundDuplicates, violations := st.violations,
        allMatch := true, reads := st.reads }
      { found := false, violations := [], allMatch := true, reads := [] }
      rfl]
    exact hm
  simp [hmatch]

theorem checkClassesFrom_cons (digest : String → String → String)
    (allow : List String) (st : CheckState) (c : String)
    (jars : List String) (rest : List (String × List String)) :
    checkClassesFrom digest allow st ((c, jars) :: rest) =
      checkClassesFrom digest allow
        (checkClass digest allow st c jars) rest := rfl

theorem checkClassesFrom_found_mono (digest : String → String → String)
    (allow : List String) :
    ∀ (entries : List (String × List String)) (st : CheckState),
      st.foundDuplicates = true →
      (checkClassesFrom digest allow st entries).foundDuplicates = true := by
  intro entries
  induction entries with
  | nil => exact fun _ h => h
  | cons e rest ih =>
    intro st h
    obtain ⟨c, jars⟩ := e
    rw [checkClassesFrom_cons]
    exact ih _ (checkClass_found_mono _ _ _ _ _ h)

theorem checkClassesFrom_printed_mono (digest : String → String → String)
    (allow : List String) :
    ∀ (entries : List (String × List String)) (st : CheckState)
      (x : String), x ∈ st.printedConflicts →
      x ∈ (checkClassesFrom digest allow st entries).printedConflicts := by
  intro entries
  induction entries with
  | nil => exact fun _ _ h => h
  | cons e rest ih =>
    intro st x h
    obtain ⟨c, jars⟩ := e
    rw [checkClassesFrom_cons]
    exact ih _ _ (checkClass_printed_mono _ _ _ _ _ h)

theorem checkClassesFrom_subset (digest : String → String → String)
    (allow : List String) :
    ∀ (entries : List (String × List String)) (st : CheckState)
      (x : String),
      x ∈ (checkClassesFrom digest allow st entries).violations →
      x ∈ st.violations ∨ x ∉ allow := by
  intro entries
  induction entries with
  | nil => exact fun _ _ h => Or.inl h
  | cons e rest ih =>
    intro st x h
    obtain ⟨c, jars⟩ := e
    rw [checkClassesFrom_cons] at h
    rcases ih _ _ h with h' | h'
    · exact checkClass_subset digest allow st c jars h'
    · exact Or.inr h'

theorem checkClassesFrom_conflict_printed
    (digest : String → String → String) (allow : List String) :
    ∀ (entries : List (String × List String)) (st : CheckState)
      (c : String) (jars : List String), (c, jars) ∈ entries →
      classConflict digest allow c jars = true →
      c ∈ (checkClassesFrom digest allow st entries).printedConflicts := by
  intro entries
  induction entries with
  | nil => intro st c jars h; exact absurd h (List.not_mem_nil _)
  | cons e rest ih =>
    intro st c jars hmem hconf
    obtain ⟨c0, js0⟩ := e
    rcases List.mem_cons.mp hmem with heq | hmem'
    · obtain ⟨rfl, rfl⟩ := Prod.mk.injEq .. ▸ And.intro
        (congrArg Prod.fst heq) (congrArg Prod.snd heq)
      rw [checkClassesFrom_cons]
      exact checkClassesFrom_printed_mono digest allow rest _ _
        (checkClass_conflict_printed digest allow st c jars hconf)
    · rw [checkClassesFrom_cons]
      exact ih _ _ _ hmem' hconf

theorem checkClass_printed_source (digest : String → String → String)
    (allow : List String) (st : CheckState) (c : String)
    (jars : List String) {x : String}
    (h : x ∈ (checkClass digest allow st c jars).printedConflicts) :
    x ∈ st.printedConflicts ∨ x = c := by
  by_cases hl : jars.length > 1
  · unfold checkClass at h
    rw [if_pos hl] at h
    dsimp only at h
    split at h
    · exact Or.inl h
    · rcases List.mem_append.mp h with h' | h'
      · exact Or.inl h'
      · exact Or.inr (List.mem_singleton.mp h')
  · unfold checkClass at h
    rw [if_neg hl] at h
    exact Or.inl h

theorem checkClassesFrom_printed_source
    (digest : String → String → String) (allow : List String) :
    ∀ (entries : List (String × List String)) (st : CheckState)
      (x : String),
      x ∈ (checkClassesFrom digest allow st entries).printedConflicts →
      x ∈ st.printedConflicts ∨ ∃ jars, (x, jars) ∈ entries := by
  intro entries
  induction entries with
  | nil => exact fun _ _ h => Or.inl h
  | cons e rest ih =>
    intro st x h
    obtain ⟨c, jars⟩ := e
    rw [checkClassesFrom_cons] at h
    rcases ih _ _ h with h' | ⟨js, hjs⟩
    · rcases checkClass_printed_source digest allow st c jars h' with h'' | rfl
      · exact Or.inl h''
      · exact Or.inr ⟨jars, List.mem_cons_self _ _⟩
    · exact Or.inr ⟨js, List.mem_cons_of_mem _ hjs⟩

/-! ### Lemmas about the classes index parser -/

theorem parse_no_moduleinfo :
    ∀ (lines : List String) (cur : Option String)
      (acc pairs : List (String × String)),
      parseClassesIndexLines lines cur acc = .ok pairs →
      (∀ c j, (c, j) ∈ acc → pyEndsWith c "module-info.class" = false) →
      ∀ c j, (c, j) ∈ pairs → pyEndsWith c "module-info.class" = false := by
  intro lines
  induction lines with
  | nil =>
    intro cur acc pairs h hacc
    injection h with h'
    exact h' ▸ hacc
  | cons line rest ih =>
    intro cur acc pairs h hacc
    simp only [parseClassesIndexLines] at h
    by_cases hjar : pyStartsWith (pyStrip line) jarnameLabel = true
    · rw [if_pos hjar] at h
      exact ih _ _ _ h hacc
    · rw [if_neg hjar] at h
      by_cases hcl : pyEndsWith (pyStrip line) ".class" = true
      · rw [if_pos hcl] at h
        by_cases hmi :
            pyEndsWith (lastToken (pyStrip line)) "module-info.class" = true
        · rw [if_pos hmi] at h
          exact ih _ _ _ h hacc
        · rw [if_neg hmi] at h
          cases cur with
          | none => exact Except.noConfusion h
          | some jctx =>
            refine ih _ _ _ h ?_
            intro c j hm
            rcases List.mem_append.mp hm with hm' | hm'
            · exact hacc c j hm'
            · rw [List.mem_singleton] at hm'
              cases hm'
              simpa using hmi
      · rw [if_neg hcl] at h
        exact ih _ _ _ h hacc

theorem mem_dedupKeys :
    ∀ (l seen : List String) (x : String), x ∈ dedupKeys l seen → x ∈ l := by
  intro l
  induction l with
  | nil => intro seen x h; exact absurd h (List.not_mem_nil _)
  | cons k rest ih =>
    intro seen x h
    unfold dedupKeys at h
    split at h
    · exact List.mem_cons_of_mem _ (ih _ _ h)
    · rcases List.mem_cons.mp h with rfl | h'
      · exact List.mem_cons_self _ _
      · exact List.mem_cons_of_mem _ (ih _ _ h')

theorem toEntries_mem {pairs : List (String × String)} {c : String}
    {jars : List String} (h : (c, jars) ∈ toEntries pairs) :
    (∃ j, (c, j) ∈ pairs) ∧ jars = jarsFor pairs c := by
  unfold toEntries at h
  rw [List.mem_map] at h
  obtain ⟨k, hk, heq⟩ := h
  obtain ⟨rfl, rfl⟩ : k = c ∧ jarsFor pairs k = jars :=
    ⟨congrArg Prod.fst heq, congrArg Prod.snd heq⟩
  have hk' : k ∈ pairs.map Prod.fst := mem_dedupKeys _ _ _ hk
  rw [List.mem_map] at hk'
  obtain ⟨p, hp, hfst⟩ := hk'
  subst hfst
  exact ⟨⟨p.2, by simpa using hp⟩, rfl⟩

theorem currentJarAfter_cons_jar (line : String) (rest : List String)
    (cur : Option String)
    (hjar : pyStartsWith (pyStrip line) jarnameLabel = true) :
    currentJarAfter (line :: rest) cur =
      currentJarAfter rest (some (pyStrip (pyDrop (pyStrip line) 9))) := by
  simp only [currentJarAfter]
  rw [if_pos hjar]

theorem currentJarAfter_cons_other (line : String) (rest : List String)
    (cur : Option String)
    (hjar : ¬ pyStartsWith (pyStrip line) jarnameLabel = true) :
    currentJarAfter (line :: rest) cur = currentJarAfter rest cur := by
  simp only [currentJarAfter]
  rw [if_neg hjar]

theorem parse_append :
    ∀ (l1 l2 : List String) (cur : Option String)
      (acc acc' : List (String × String)),
      parseClassesIndexLines l1 cur acc = .ok acc' →
      parseClassesIndexLines (l1 ++ l2) cur acc =
        parseClassesIndexLines l2 (currentJarAfter l1 cur) acc' := by
  intro l1
  induction l1 with
  | nil =>
    intro l2 cur acc acc' h
    injection h with h'
    subst h'
    rfl
  | cons line rest ih =>
    intro l2 cur acc acc' h
    rw [List.cons_append]
    simp only [parseClassesIndexLines] at h ⊢
    by_cases hjar : pyStartsWith (pyStrip line) jarnameLabel = true
    · rw [if_pos hjar] at h ⊢
      rw [currentJarAfter_cons_jar line rest cur hjar]
      exact ih _ _ _ _ h
    · rw [if_neg hjar] at h ⊢
      rw [currentJarAfter_cons_other line rest cur hjar]
      by_cases hcl : pyEndsWith (pyStrip line) ".class" = true
      · rw [if_pos hcl] at h ⊢
        by_cases hmi :
            pyEndsWith (lastToken (pyStrip line)) "module-info.class" = true
        · rw [if_pos hmi] at h ⊢
          exact ih _ _ _ _ h
        · rw [if_neg hmi] at h ⊢
          cases cur with
          | none => exact Except.noConfusion h
          | some jctx => exact ih _ _ _ _ h
      · rw [if_neg hcl] at h ⊢
        exact ih _ _ _ _ h

/-! ### Lemmas about the allowlist parser -/

theorem allow_fold_mono :
    ∀ (lines acc : List String) (x : String), x ∈ acc →
      x ∈ lines.foldl allowStep acc := by
  intro lines
  induction lines with
  | nil => exact fun _ _ h => h
  | cons l0 rest ih =>
    intro acc x h
    rw [List.foldl_cons]
    apply ih
    simp only [allowStep]
    split
    · exact h
    · exact mem_addToSet_of_mem _ h

theorem allow_fold_complete :
    ∀ (lines acc : List String) (line : String), line ∈ lines →
      (pyStrip line).data.length ≠ 0 →
      pyStartsWith (pyStrip line) "#" = false →
      basename (pyStrip line) ∈ lines.foldl allowStep acc := by
  intro lines
  induction lines with
  | nil => intro acc line h; exact absurd h (List.not_mem_nil _)
  | cons l0 rest ih =>
    intro acc line hmem h0 hh
    rw [List.foldl_cons]
    rcases List.mem_cons.mp hmem with rfl | hmem'
    · apply allow_fold_mono
      simp only [allowStep]
      rw [if_neg (by simp [hh]; intro hz; exact h0 hz)]
      exact mem_addToSet_self _ _
    · exact ih _ _ hmem' h0 hh

theorem allow_fold_sound :
    ∀ (lines acc : List String) (x : String),
      x ∈ lines.foldl allowStep acc →
      x ∈ acc ∨ ∃ line ∈ lines, (pyStrip line).data.length ≠ 0 ∧
        pyStartsWith (pyStrip line) "#" = false ∧
        x = basename (pyStrip line) := by
  intro lines
  induction lines with
  | nil => exact fun _ _ h => Or.inl h
  | cons l0 rest ih =>
    intro acc x h
    rw [List.foldl_cons] at h
    rcases ih _ _ h with h' | ⟨line, hline, h0, hh, rfl⟩
    · simp only [allowStep] at h'
      by_cases hg : (decide ((pyStrip l0).data.length = 0) ||
          pyStartsWith (pyStrip l0) "#") = true
      · rw [if_pos hg] at h'
        exact Or.inl h'
      · rw [if_neg hg] at h'
        rcases mem_addToSet_iff.mp h' with h'' | rfl
        · exact Or.inl h''
        · rw [Bool.or_eq_true, not_or] at hg
          obtain ⟨hg0, hgh⟩ := hg
          refine Or.inr ⟨l0, List.mem_cons_self _ _, ?_, ?_, rfl⟩
          · intro hz; exact hg0 (by simp [hz])
          · simpa using hgh
    · exact Or.inr ⟨line, List.mem_cons_of_mem _ hline, h0, hh, rfl⟩

/-! ### The claims -/

/-- Claim C8: for every class path whose jar list contains exactly one
jar, the conflict check reports no conflict, adds nothing to the
violation set, and reads no archive: the state is returned unchanged. -/
theorem claim_C8 (digest : String → String → String) (allow : List String)
    (st : CheckState) (c j : String) :
    checkClass digest allow st c [j] = st :=
  checkClass_singleton digest allow st c j

/-- Claim C9: every basename in the violation set produced by the
duplicate check is not a member of the allowlist, so the
recommended-allowlist output is disjoint from the current allowlist. -/
theorem claim_C9 (digest : String → String → String)
    (entries : List (String × List String)) (allow : List String)
    (x : String)
    (h : x ∈ (checkForDuplicateClasses digest entries allow).violations) :
    x ∉ allow := by
  unfold checkForDuplicateClasses at h
  rcases checkClassesFrom_subset digest allow entries initialCheckState x h
    with h' | h'
  · exact absurd h' (List.not_mem_nil _)
  · exact h'

/-- Witness for C9 at a concrete conflicting input. -/
theorem claim_C9_witness : "b.jar" ∉ (["a.jar"] : List String) :=
  claim_C9 digestByJar [("C.class", ["d/a.jar", "d/b.jar"])] ["a.jar"]
    "b.jar" (by decide)

/-- Claim C4: for a class path whose contributing jars all yield the
same content hash, nothing is added to the violation set, the flag is
not raised and no conflict is printed, regardless of the allowlist. -/
theorem claim_C4 (digest : String → String → String) (allow : List String)
    (st : CheckState) (c h : String) (jars : List String)
    (hall : ∀ j ∈ jars, digest j c = h) :
    (checkClass digest allow st c jars).violations = st.violations ∧
      (checkClass digest allow st c jars).foundDuplicates =
        st.foundDuplicates ∧
      (checkClass digest allow st c jars).printedConflicts =
        st.printedConflicts :=
  checkClass_allEqual digest allow st c h jars hall

/-- Witness for C4: two jars with identical digests, empty allowlist. -/
theorem claim_C4_witness :
    (checkClass constDigest [] initialCheckState "C.class"
        ["a.jar", "b.jar"]).violations = initialCheckState.violations ∧
      (checkClass constDigest [] initialCheckState "C.class"
        ["a.jar", "b.jar"]).foundDuplicates =
        initialCheckState.foundDuplicates ∧
      (checkClass constDigest [] initialCheckState "C.class"
        ["a.jar", "b.jar"]).printedConflicts =
        initialCheckState.printedConflicts :=
  claim_C4 constDigest [] initialCheckState "C.class" "d0"
    ["a.jar", "b.jar"] (fun _ _ => rfl)

/-- Counterexample to claim C1 as stated: adjacent jars with differing
digests, the second jar not allowlisted (so the claim's condition "at
least one basename not in the allowlist" holds and the flag is raised),
yet the allowlisted first jar's basename is NOT added to the violation
set, contradicting "both jars' basenames are added". -/
theorem claim_C1_counterexample :
    digestByJar "d/a.jar" "C.class" ≠ digestByJar "d/b.jar" "C.class" ∧
      basename "d/a.jar" ∈ (["a.jar"] : List String) ∧
      basename "d/b.jar" ∉ (["a.jar"] : List String) ∧
      (checkForDuplicateClasses digestByJar
        [("C.class", ["d/a.jar", "d/b.jar"])] ["a.jar"]).foundDuplicates =
        true ∧
      basename "d/a.jar" ∉
        (checkForDuplicateClasses digestByJar
          [("C.class", ["d/a.jar", "d/b.jar"])] ["a.jar"]).violations := by
  decide

/-- Claim C1 (amended): at an adjacent digest mismatch, each of the two
jars whose basename is not in the allowlist is added to the violation
set with the found-duplicates flag raised; a mismatch between two
allowlisted jars changes nothing, and a class whose jars are all
allowlisted contributes no violation, no flag and no printed conflict. -/
theorem claim_C1 (digest : String → String → String) (allow : List String)
    (st : CheckState) (c : String) (pre post : List String) (a b : String)
    (hd : digest a c ≠ digest b c) :
    (basename b ∉ allow →
      basename b ∈
          (checkClass digest allow st c (pre ++ a :: b :: post)).violations ∧
        (checkClass digest allow st c
          (pre ++ a :: b :: post)).foundDuplicates = true) ∧
      (basename a ∉ allow →
        basename a ∈
            (checkClass digest allow st c
              (pre ++ a :: b :: post)).violations ∧
          (checkClass digest allow st c
            (pre ++ a :: b :: post)).foundDuplicates = true) ∧
      (∀ scan : ClassScan, basename a ∈ allow → basename b ∈ allow →
        mismatchStep allow b a scan = scan) ∧
      ((∀ j ∈ pre ++ a :: b :: post, basename j ∈ allow) →
        (checkClass digest allow st c (pre ++ a :: b :: post)).violations =
            st.violations ∧
          (checkClass digest allow st c
            (pre ++ a :: b :: post)).foundDuplicates = st.foundDuplicates ∧
          (checkClass digest allow st c
            (pre ++ a :: b :: post)).printedConflicts =
            st.printedConflicts) :=
  ⟨fun hb => checkClass_pair_cur digest allow st c pre post a b hd hb,
    fun ha => checkClass_pair_prev digest allow st c pre post a b hd ha,
    fun scan ha hb => mismatchStep_both_allow allow b a scan hb ha,
    fun hall => checkClass_allAllow digest allow st c
      (pre ++ a :: b :: post) hall⟩

/-- Witness for C1 (amended) at a concrete mismatching pair. -/
theorem claim_C1_witness :
    basename "d/b.jar" ∈
        (checkClass digestByJar ["a.jar"] initialCheckState "C.class"
          ([] ++ "d/a.jar" :: "d/b.jar" :: [])).violations ∧
      (checkClass digestByJar ["a.jar"] initialCheckState "C.class"
        ([] ++ "d/a.jar" :: "d/b.jar" :: [])).foundDuplicates = true :=
  (claim_C1 digestByJar ["a.jar"] initialCheckState "C.class" [] []
    "d/a.jar" "d/b.jar" (by decide)).1 (by decide)

/-- Claim C5: a class path held by exactly two jars with differing
digests: if both basenames are allowlisted nothing is reported and the
final raise succeeds; if neither is allowlisted the conflict is printed,
both basenames are in the violation set, and the final raise fails. -/
theorem claim_C5 (digest : String → String → String) (allow : List String)
    (c j1 j2 : String) (hd : digest j1 c ≠ digest j2 c) :
    (basename j1 ∈ allow → basename j2 ∈ allow →
      (checkForDuplicateClasses digest [(c, [j1, j2])]
          allow).foundDuplicates = false ∧
        (checkForDuplicateClasses digest [(c, [j1, j2])]
          allow).violations = [] ∧
        (checkForDuplicateClasses digest [(c, [j1, j2])]
          allow).printedConflicts = [] ∧
        raiseIfDuplicates
          (checkForDuplicateClasses digest [(c, [j1, j2])] allow) =
          .ok (checkForDuplicateClasses digest [(c, [j1, j2])] allow)) ∧
      (basename j1 ∉ allow → basename j2 ∉ allow →
        (checkForDuplicateClasses digest [(c, [j1, j2])]
            allow).foundDuplicates = true ∧
          basename j1 ∈
            (checkForDuplicateClasses digest [(c, [j1, j2])]
              allow).violations ∧
          basename j2 ∈
            (checkForDuplicateClasses digest [(c, [j1, j2])]
              allow).violations ∧
          (checkForDuplicateClasses digest [(c, [j1, j2])]
            allow).printedConflicts = [c] ∧
          raiseIfDuplicates
            (checkForDuplicateClasses digest [(c, [j1, j2])] allow) =
            .error "Found duplicate classes in the packaged springboot jar") := by
  have key : checkForDuplicateClasses digest [(c, [j1, j2])] allow =
      { foundDuplicates := (mismatchStep allow j2 j1
          { found := false, violations := [], allMatch := true,
            reads := [(j1, c), (j2, c)] }).found,
        violations := (mismatchStep allow j2 j1
          { found := false, violations := [], allMatch := true,
            reads := [(j1, c), (j2, c)] }).violations,
        printedConflicts := if (mismatchStep allow j2 j1
            { found := false, violations := [], allMatch := true,
              reads := [(j1, c), (j2, c)] }).allMatch then [] else [c],
        reads := (mismatchStep allow j2 j1
          { found := false, violations := [], allMatch := true,
            reads := [(j1, c), (j2, c)] }).reads } := by
    show checkClass digest allow initialCheckState c [j1, j2] = _
    unfold checkClass
    rw [if_pos (by simp : ([j1, j2] : List String).length > 1)]
    rw [scanJars_cons_none, scanJars_cons_some, if_pos hd]
    rfl
  rw [key]
  constructor
  · intro h1 h2
    rw [mismatchStep_both_allow allow j2 j1 _ h2 h1]
    exact ⟨rfl, rfl, rfl, rfl⟩
  · intro h1 h2
    obtain ⟨hmem2, hfound, hmatch⟩ := mismatchStep_cur allow j2 j1
      { found := false, violations := [], allMatch := true,
        reads := [(j1, c), (j2, c)] } h2
    obtain ⟨hmem1, _, _⟩ := mismatchStep_prev allow j2 j1
      { found := false, violations := [], allMatch := true,
        reads := [(j1, c), (j2, c)] } h1
    refine ⟨hfound, hmem1, hmem2, by simp [hmatch], ?_⟩
    simp [raiseIfDuplicates, hfound]

/-- Witness for C5: both branches at concrete inputs. -/
theorem claim_C5_witness :
    (checkForDuplicateClasses digestByJar
        [("C.class", ["d/a.jar", "d/b.jar"])] []).foundDuplicates = true ∧
      basename "d/a.jar" ∈
        (checkForDuplicateClasses digestByJar
          [("C.class", ["d/a.jar", "d/b.jar"])] []).violations ∧
      basename "d/b.jar" ∈
        (checkForDuplicateClasses digestByJar
          [("C.class", ["d/a.jar", "d/b.jar"])] []).violations ∧
      (checkForDuplicateClasses digestByJar
        [("C.class", ["d/a.jar", "d/b.jar"])] []).printedConflicts =
        ["C.class"] ∧
      raiseIfDuplicates
        (checkForDuplicateClasses digestByJar
          [("C.class", ["d/a.jar", "d/b.jar"])] []) =
        .error "Found duplicate classes in the packaged springboot jar" :=
  (claim_C5 digestByJar [] "C.class" "d/a.jar" "d/b.jar" (by decide)).2
    (by decide) (by decide)

/-- Claim C7: the allowlist loader keeps exactly the basenames of the
stripped non-empty non-comment lines, and the conflict check consults
only the basename of a jar path, so a full-path variant of an
allowlisted basename is treated as allowlisted. -/
theorem claim_C7 (lines : List String) :
    (∀ line ∈ lines, (pyStrip line).data.length ≠ 0 →
      pyStartsWith (pyStrip line) "#" = false →
      basename (pyStrip line) ∈ parseAllowlistedJars lines) ∧
      (∀ x ∈ parseAllowlistedJars lines, ∃ line ∈ lines,
        (pyStrip line).data.length ≠ 0 ∧
          pyStartsWith (pyStrip line) "#" = false ∧
          x = basename (pyStrip line)) ∧
      (∀ (allow : List String) (jarPath prevJarPath : String)
        (scan : ClassScan), basename jarPath ∈ allow →
        basename prevJarPath ∈ allow →
        mismatchStep allow jarPath prevJarPath scan = scan) := by
  refine ⟨?_, ?_, ?_⟩
  · intro line hl h0 hh
    exact allow_fold_complete lines [] line hl h0 hh
  · intro x hx
    rcases allow_fold_sound lines [] x hx with h' | h'
    · exact absurd h' (List.not_mem_nil _)
    · exact h'
  · intro allow j p scan hj hp
    exact mismatchStep_both_allow allow j p scan hj hp

/-- Witness for C7: a full path line contributes its basename. -/
theorem claim_C7_witness :
    basename (pyStrip "  dir/x.jar  ") ∈
      parseAllowlistedJars ["# note", "", "  dir/x.jar  "] :=
  (claim_C7 ["# note", "", "  dir/x.jar  "]).1 "  dir/x.jar  "
    (by decide) (by decide) (by decide)

/-- Counterexample to claim C2 as stated: a `module-info.class` line
ends in ".class" and occurs before any "Jarname: " line, yet the parse
succeeds (with an empty mapping) instead of failing. -/
theorem claim_C2_counterexample :
    pyEndsWith "module-info.class" ".class" = true ∧
      pyStartsWith "module-info.class" jarnameLabel = false ∧
      parseClassesIndexFile ["module-info.class"] = .ok [] :=
  ⟨by decide, by decide, rfl⟩

theorem parse_error_before_jarname :
    ∀ (pre : List String) (line : String) (post : List String)
      (acc : List (String × String)),
      (∀ p ∈ pre, pyStartsWith (pyStrip p) jarnameLabel = false) →
      pyStartsWith (pyStrip line) jarnameLabel = false →
      pyEndsWith (pyStrip line) ".class" = true →
      pyEndsWith (lastToken (pyStrip line)) "module-info.class" = false →
      ∃ msg, parseClassesIndexLines (pre ++ line :: post) none acc =
        .error msg := by
  intro pre
  induction pre with
  | nil =>
    intro line post acc _ hjar hcl hmi
    rw [List.nil_append]
    simp only [parseClassesIndexLines]
    rw [if_neg (by simp [hjar]), if_pos hcl, if_neg (by simp [hmi])]
    exact ⟨_, rfl⟩
  | cons p rest ih =>
    intro line post acc hpre hjar hcl hmi
    have hp := hpre p (List.mem_cons_self _ _)
    have hrest : ∀ q ∈ rest, pyStartsWith (pyStrip q) jarnameLabel = false :=
      fun q hq => hpre q (List.mem_cons_of_mem _ hq)
    rw [List.cons_append]
    simp only [parseClassesIndexLines]
    rw [if_neg (by simp [hp])]
    by_cases hcl0 : pyEndsWith (pyStrip p) ".class" = true
    · rw [if_pos hcl0]
      by_cases hmi0 :
          pyEndsWith (lastToken (pyStrip p)) "module-info.class" = true
      · rw [if_pos hmi0]
        exact ih line post acc hrest hjar hcl hmi
      · rw [if_neg hmi0]
        exact ⟨_, rfl⟩
    · rw [if_neg hcl0]
      exact ih line post acc hrest hjar hcl hmi

/-- Claim C2 (amended): parsing fails when, before any line whose
stripped form starts with "Jarname: ", there is a line whose stripped
form ends in ".class", does not start with "Jarname: ", and whose
extracted class path does not end in "module-info.class"
(`module-info.class` entries are skipped before the jar-context check
and so escape the error). -/
theorem claim_C2 (pre : List String) (line : String) (post : List String)
    (hpre : ∀ p ∈ pre, pyStartsWith (pyStrip p) jarnameLabel = false)
    (hjar : pyStartsWith (pyStrip line) jarnameLabel = false)
    (hcl : pyEndsWith (pyStrip line) ".class" = true)
    (hmi : pyEndsWith (lastToken (pyStrip line)) "module-info.class" =
      false) :
    ∃ msg, parseClassesIndexFile (pre ++ line :: post) = .error msg :=
  parse_error_before_jarname pre line post [] hpre hjar hcl hmi

/-- Witness for C2 (amended) at a concrete malformed index. -/
theorem claim_C2_witness :
    ∃ msg, parseClassesIndexFile
      (["other line"] ++ "x foo.class" :: ["Jarname: j"]) = .error msg :=
  claim_C2 ["other line"] "x foo.class" ["Jarname: j"] (by decide)
    (by decide) (by decide) (by decide)

/-- Claim C6: no class path ending in "module-info.class" ever appears
as a key of the parsed class-path→jars mapping, and hence none is ever
printed as a conflict. -/
theorem claim_C6 (lines : List String) (pairs : List (String × String))
    (digest : String → String → String) (allow : List String)
    (hparse : parseClassesIndexFile lines = .ok pairs) :
    (∀ c jars, (c, jars) ∈ toEntries pairs →
      pyEndsWith c "module-info.class" = false) ∧
      (∀ c, c ∈ (checkForDuplicateClasses digest (toEntries pairs)
          allow).printedConflicts →
        pyEndsWith c "module-info.class" = false) := by
  have hpairs : ∀ c j, (c, j) ∈ pairs →
      pyEndsWith c "module-info.class" = false :=
    parse_no_moduleinfo lines none [] pairs hparse
      (fun c j h => absurd h (List.not_mem_nil _))
  constructor
  · intro c jars hmem
    obtain ⟨⟨j, hj⟩, _⟩ := toEntries_mem hmem
    exact hpairs c j hj
  · intro c hc
    unfold checkForDuplicateClasses at hc
    rcases checkClassesFrom_printed_source digest allow (toEntries pairs)
      initialCheckState c hc with h' | ⟨jars, hjars⟩
    · exact absurd h' (List.not_mem_nil _)
    · obtain ⟨⟨j, hj⟩, _⟩ := toEntries_mem hjars
      exact hpairs c j hj

/-- Witness for C6 at a concrete index containing a module-info line. -/
theorem claim_C6_witness :
    (∀ c jars, (c, jars) ∈ toEntries [("a.class", "j")] →
      pyEndsWith c "module-info.class" = false) ∧
      (∀ c, c ∈ (checkForDuplicateClasses digestByJar
          (toEntries [("a.class", "j")]) []).printedConflicts →
        pyEndsWith c "module-info.class" = false) :=
  claim_C6 ["Jarname: j", "a.class", "b/module-info.class"]
    [("a.class", "j")] digestByJar [] rfl

/-- Claim C3: when the index parses, the run fails exactly when the
check over the whole mapping raised the found-duplicates flag; with the
flag down it completes normally; and the final state — which is built by
folding over every entry, with no short-circuit — has a printed conflict
message for every conflicting class path. -/
theorem claim_C3 (digest : String → String → String)
    (indexLines allowLines : List String)
    (pairs : List (String × String)) (allow : List String)
    (st : CheckState)
    (hparse : parseClassesIndexFile indexLines = .ok pairs)
    (hallow : allow = parseAllowlistedJars allowLines)
    (hst : st = checkForDuplicateClasses digest (toEntries pairs) allow) :
    ((∃ msg, run digest indexLines allowLines = .error msg) ↔
      st.foundDuplicates = true) ∧
      (st.foundDuplicates = false →
        run digest indexLines allowLines = .ok st) ∧
      (∀ c jars, (c, jars) ∈ toEntries pairs →
        classConflict digest allow c jars = true →
        c ∈ st.printedConflicts) := by
  subst hallow
  subst hst
  have hrun : run digest indexLines allowLines =
      raiseIfDuplicates (checkForDuplicateClasses digest (toEntries pairs)
        (parseAllowlistedJars allowLines)) := by
    unfold run
    rw [hparse]
  refine ⟨?_, ?_, ?_⟩
  · rw [hrun]
    unfold raiseIfDuplicates
    constructor
    · rintro ⟨msg, hmsg⟩
      by_cases hf : (checkForDuplicateClasses digest (toEntries pairs)
          (parseAllowlistedJars allowLines)).foundDuplicates = true
      · exact hf
      · rw [if_neg hf] at hmsg
        exact Except.noConfusion hmsg
    · intro hf
      rw [if_pos hf]
      exact ⟨_, rfl⟩
  · intro hf
    rw [hrun]
    unfold raiseIfDuplicates
    rw [if_neg (by simp [hf])]
  · intro c jars hmem hconf
    unfold checkForDuplicateClasses
    exact checkClassesFrom_conflict_printed digest _ (toEntries pairs)
      initialCheckState c jars hmem hconf

/-- Witness for C3 at a concrete conflicting run. -/
theorem claim_C3_witness :
    (∃ msg, run digestByJar
        ["Jarname: x", "A.class", "Jarname: y", "A.class"] [] =
        .error msg) ↔
      (checkForDuplicateClasses digestByJar
        (toEntries [("A.class", "x"), ("A.class", "y")])
        (parseAllowlistedJars [])).foundDuplicates = true :=
  (claim_C3 digestByJar ["Jarname: x", "A.class", "Jarname: y", "A.class"]
    [] [("A.class", "x"), ("A.class", "y")] (parseAllowlistedJars [])
    (checkForDuplicateClasses digestByJar
      (toEntries [("A.class", "x"), ("A.class", "y")])
      (parseAllowlistedJars [])) rfl rfl rfl).1

/-- Claim C10: a class-file line repeated under the same jar context
appends that jar once per occurrence to the class's jar list; and a
class whose jar list is one jar path repeated (equal adjacent digests)
contributes no violation, no flag and no printed conflict. -/
theorem claim_C10 :
    (∀ (l1 : List String) (cur : Option String)
      (acc acc' : List (String × String)) (line c j : String),
      parseClassesIndexLines l1 cur acc = .ok acc' →
      currentJarAfter l1 cur = some j →
      pyStartsWith (pyStrip line) jarnameLabel = false →
      pyEndsWith (pyStrip line) ".class" = true →
      lastToken (pyStrip line) = c →
      pyEndsWith c "module-info.class" = false →
      parseClassesIndexLines (l1 ++ [line, line]) cur acc =
          .ok (acc' ++ [(c, j), (c, j)]) ∧
        jarsFor (acc' ++ [(c, j), (c, j)]) c = jarsFor acc' c ++ [j, j]) ∧
      (∀ (digest : String → String → String) (allow : List String)
        (st : CheckState) (c j : String) (n : Nat),
        (checkClass digest allow st c
            (List.replicate n j)).violations = st.violations ∧
          (checkClass digest allow st c
            (List.replicate n j)).foundDuplicates = st.foundDuplicates ∧
          (checkClass digest allow st c
            (List.replicate n j)).printedConflicts =
            st.printedConflicts) := by
  constructor
  · intro l1 cur acc acc' line c j hok hcur hjar hcl hc hmi
    subst hc
    constructor
    · rw [parse_append l1 [line, line] cur acc acc' hok, hcur]
      simp only [parseClassesIndexLines]
      rw [if_neg (by simp [hjar]), if_pos hcl, if_neg (by simp [hmi])]
      rw [if_neg (by simp [hjar]), if_pos hcl, if_neg (by simp [hmi])]
      simp
    · simp [jarsFor, List.filter_append]
  · intro digest allow st c j n
    exact checkClass_allEqual digest allow st c (digest j c)
      (List.replicate n j)
      (fun x hx => by rw [List.eq_of_mem_replicate hx])

/-- Witness for C10 at a concrete repeated class line. -/
theorem claim_C10_witness :
    parseClassesIndexLines (["Jarname: j"] ++ ["a.class", "a.class"])
        none [] = .ok ([] ++ [("a.class", "j"), ("a.class", "j")]) ∧
      jarsFor ([] ++ [("a.class", "j"), ("a.class", "j")]) "a.class" =
        jarsFor [] "a.class" ++ ["j", "j"] :=
  claim_C10.1 ["Jarname: j"] none [] [] "a.class" "a.class" "j" rfl rfl
    (by decide) (by decide) (by decide) (by decide)

end VerifyConflict
